import Mathlib

/-
Verification of the lazyssh Manager and provider contract.

This file gives a shallow embedding of the Go sources:
  * the Manager event loop, its registries and handlers (manager package);
  * the per-channel connector goroutine (connectChannel);
  * the provider run-loop select structure (msgLoop of the aws_ec2,
    hcloud and virtualbox providers);
  * the drain goroutine launched by handleMachineStopped;
  * the linger-relevant fragment of the aws_ec2 and virtualbox
    NewProvider factories, including a model of Go time.ParseDuration.

Goroutine interaction is modelled by an explicit event alphabet: each
value a goroutine could receive in one of its selects is an event, and
the stateful loops become step functions / runs over event lists.
Machine pointers are modelled by numeric ids allocated from a counter.
-/

/-- Rejection reasons of the golang.org/x/crypto/ssh package used by the
Manager: Prohibited, ConnectionFailed and UnknownChannelType. -/
inductive RejectReason where
  | prohibited
  | connectionFailed
  | unknownChannelType
deriving DecidableEq, Repr

/-- Payload of an SSH direct-tcpip channel open request (RFC 4254 7.2),
struct channelOpenDirectMsg in the manager package. -/
structure ChannelOpenDirectMsg where
  remoteAddr : String
  remotePort : Nat
  localAddr : String
  localPort : Nat
deriving DecidableEq, Repr

/-- A machine record of the Manager: the wrapper struct machine in the
manager package. The id stands for the Go pointer identity. The field
stopChanCap records the buffer capacity the Stop channel was created
with (make(chan struct base, 1) in handleNewChannel). -/
structure Mach where
  id : Nat
  target : String
  shared : Bool
  stopChanCap : Nat
deriving DecidableEq, Repr

/-- An SSH channel open event as received by the Manager: its channel
type string, and the result of ssh.Unmarshal on its extra data (none
models a parse failure of the external unmarshaller). -/
structure NewChanEvent where
  chanType : String
  payload : Option ChannelOpenDirectMsg
deriving DecidableEq, Repr

/-- Observable actions of the Manager goroutine: channel rejections,
goroutines it spawns, sends into machine Stop channels, and sends into
the reply channels of Stop() callers. -/
inductive MgrAction where
  | reject (code : RejectReason) (reason : String)
  | spawnRun (m : Mach)
  | spawnConnect (m : Mach) (input : ChannelOpenDirectMsg)
  | stopSend (m : Mach)
  | spawnDrain (m : Mach)
  | replyStop (ch : Nat)
deriving DecidableEq, Repr

/-- The provider table of the Manager, indexed by target address. The
Manager only ever calls IsShared on a provider, so a provider is
modelled by that one bit: some b means a provider exists for the
address and its IsShared() returns b. -/
def ProviderTable : Type := String → Option Bool

/-- State of the Manager goroutine: the all-machines set, the shared
machines map (association list with Go map semantics), the stoppingCh
slice of the event loop (none models the nil slice, reply channels are
numeric ids), and the allocator for machine identities. -/
structure MgrState where
  machines : List Mach
  sharedMachines : List (String × Mach)
  stopping : Option (List Nat)
  nextId : Nat
deriving DecidableEq, Repr

/-- Lookup in a Go-map-like association list. -/
def mapLookup (k : String) (l : List (String × Mach)) : Option Mach :=
  (l.find? (fun p => p.1 == k)).map (fun p => p.2)

/-- Insert with overwrite, the semantics of a Go map assignment. -/
def mapInsert (k : String) (v : Mach) (l : List (String × Mach)) : List (String × Mach) :=
  (k, v) :: l.filter (fun p => p.1 != k)

/-- Deletion, the semantics of the Go builtin delete. -/
def mapDelete (k : String) (l : List (String × Mach)) : List (String × Mach) :=
  l.filter (fun p => p.1 != k)

/-- The initial Manager state built by NewManager: empty machines index,
empty sharedMachines index, nil stoppingCh slice. -/
def initState : MgrState :=
  { machines := [], sharedMachines := [], stopping := none, nextId := 0 }

/-- Translation of the handleNewChannel method of the Manager, run on
the message loop goroutine for a channel open event that arrives before
shutdown. Returns the updated state and the emitted actions. -/
def handleNewChannel (provs : ProviderTable) (s : MgrState) (e : NewChanEvent) :
    MgrState × List MgrAction :=
  if e.chanType ≠ "direct-tcpip" then
    (s, [.reject .unknownChannelType "unsuported channel type"])
  else
    match e.payload with
    | none => (s, [.reject .prohibited "invalid direct-tcpip parameters"])
    | some input =>
      match provs input.remoteAddr with
      | none => (s, [.reject .connectionFailed "unknown remote address"])
      | some isShared =>
        let existing := if isShared then mapLookup input.remoteAddr s.sharedMachines else none
        match existing with
        | some mach => (s, [.spawnConnect mach input])
        | none =>
          let mach : Mach :=
            { id := s.nextId
              target := input.remoteAddr
              shared := isShared
              stopChanCap := 1 }
          ({ s with
              machines := mach :: s.machines
              sharedMachines :=
                if isShared then mapInsert mach.target mach s.sharedMachines
                else s.sharedMachines
              nextId := s.nextId + 1 },
           [.spawnRun mach, .spawnConnect mach input])

/-- Translation of the handleMachineStopped method of the Manager:
remove the machine from the machines index, delete its sharedMachines
entry when its shared flag is set, and launch the drain goroutine. -/
def handleMachineStopped (s : MgrState) (m : Mach) : MgrState × List MgrAction :=
  ({ s with
      machines := s.machines.filter (fun x => x.id != m.id)
      sharedMachines :=
        if m.shared then mapDelete m.target s.sharedMachines else s.sharedMachines },
   [.spawnDrain m])

/-- Events received by the Manager message loop select: a channel open
on the newChannel channel, a machine stop notice on machStopped, and a
shutdown request carrying a reply channel id on the stop channel. -/
inductive MgrEvent where
  | newChan (e : NewChanEvent)
  | machStopped (m : Mach)
  | stopReq (replyCh : Nat)
deriving DecidableEq, Repr

/-- One iteration of the Manager message loop select, translated from
the goroutine body in NewManager. -/
def mgrStep (provs : ProviderTable) (s : MgrState) (ev : MgrEvent) :
    MgrState × List MgrAction :=
  match ev with
  | .newChan e =>
    if s.stopping = none then handleNewChannel provs s e
    else (s, [.reject .prohibited "this server is shutting down"])
  | .machStopped m => handleMachineStopped s m
  | .stopReq r =>
    if s.stopping = none then
      ({ s with stopping := some [r] }, s.machines.map .stopSend)
    else
      ({ s with stopping := s.stopping.map (fun l => l ++ [r]) }, [])

/-- The negated loop condition of the Manager goroutine: the for loop
runs while stoppingCh == nil or machines are left, so it exits exactly
when a stop was requested and the machines index is empty. -/
def loopExit (s : MgrState) : Bool :=
  s.stopping.isSome && s.machines.isEmpty

/-- The fan-out after the loop: one send per recorded reply channel. -/
def stopReplies (s : MgrState) : List MgrAction :=
  (s.stopping.getD []).map .replyStop

/-- A run of the Manager goroutine over a sequence of arriving events.
The loop condition is checked before each receive; once it fails the
replies are fanned out and the goroutine ends, so any events arriving
later are never received (their senders block forever). -/
def mgrRun (provs : ProviderTable) (s : MgrState) : List MgrEvent → MgrState × List MgrAction
  | [] => if loopExit s then (s, stopReplies s) else (s, [])
  | ev :: rest =>
    if loopExit s then (s, stopReplies s)
    else
      let res := mgrStep provs s ev
      let res2 := mgrRun provs res.1 rest
      (res2.1, res.2 ++ res2.2)

/-- Environment constraint on events: a machStopped message is sent by
the monitor goroutine exactly once per machine, after RunMachine has
returned, and the machine is in the machines index from its creation
until this very message is processed. Other events are unconstrained. -/
def ValidEvent (s : MgrState) : MgrEvent → Prop
  | .machStopped m => m ∈ s.machines
  | _ => True

/-- Event traces the environment can actually deliver to the loop: once
the loop has exited, the rest of the trace is never received and so is
unconstrained. -/
inductive ValidTrace (provs : ProviderTable) : MgrState → List MgrEvent → Prop where
  | nil : ∀ s, ValidTrace provs s []
  | exited : ∀ s ev rest, loopExit s = true → ValidTrace provs s (ev :: rest)
  | cons : ∀ s ev rest, loopExit s = false → ValidEvent s ev →
      ValidTrace provs (mgrStep provs s ev).1 rest → ValidTrace provs s (ev :: rest)

/-- States of the Manager goroutine reachable from the initial state by
processing environment-deliverable events while the loop is live. -/
inductive Reachable (provs : ProviderTable) : MgrState → Prop where
  | init : Reachable provs initState
  | step : ∀ s ev, Reachable provs s → loopExit s = false → ValidEvent s ev →
      Reachable provs (mgrStep provs s ev).1

/-! Lemmas about the Go-map model. -/

theorem mapLookup_cons (k : String) (p : String × Mach) (l : List (String × Mach)) :
    mapLookup k (p :: l) = if p.1 = k then some p.2 else mapLookup k l := by
  by_cases h : p.1 = k
  · simp [mapLookup, List.find?, h]
  · have hb : (p.1 == k) = false := by simp [h]
    simp [mapLookup, List.find?, hb, h]

theorem mapLookup_filter_ne (k k' : String) (l : List (String × Mach)) (h : k' ≠ k) :
    mapLookup k' (l.filter (fun p => p.1 != k)) = mapLookup k' l := by
  induction l with
  | nil => rfl
  | cons p l ih =>
    by_cases hp : p.1 = k
    · have hkk : ¬(k = k') := fun hh => h hh.symm
      simp [hp, mapLookup_cons, hkk, ih]
    · simp [List.filter_cons, hp, mapLookup_cons, ih]

theorem mapLookup_insert_self (k : String) (v : Mach) (l : List (String × Mach)) :
    mapLookup k (mapInsert k v l) = some v := by
  simp [mapInsert, mapLookup_cons]

theorem mapLookup_insert_ne (k k' : String) (v : Mach) (l : List (String × Mach))
    (h : k' ≠ k) : mapLookup k' (mapInsert k v l) = mapLookup k' l := by
  have h2 : k ≠ k' := fun hh => h hh.symm
  simp [mapInsert, mapLookup_cons, h2, mapLookup_filter_ne k k' l h]

theorem mapLookup_delete_self (k : String) (l : List (String × Mach)) :
    mapLookup k (mapDelete k l) = none := by
  induction l with
  | nil => rfl
  | cons p l ih =>
    by_cases hp : p.1 = k
    · simpa [mapDelete, List.filter_cons, hp] using ih
    · simpa [mapDelete, List.filter_cons, hp, mapLookup_cons] using ih

theorem mapLookup_delete_ne (k k' : String) (l : List (String × Mach)) (h : k' ≠ k) :
    mapLookup k' (mapDelete k l) = mapLookup k' l :=
  mapLookup_filter_ne k k' l h

theorem mem_mapDelete (k : String) (p : String × Mach) (l : List (String × Mach)) :
    p ∈ mapDelete k l ↔ p ∈ l ∧ p.1 ≠ k := by
  simp [mapDelete, List.mem_filter]

theorem mem_mapInsert (k : String) (v : Mach) (p : String × Mach) (l : List (String × Mach)) :
    p ∈ mapInsert k v l ↔ p = (k, v) ∨ (p ∈ l ∧ p.1 ≠ k) := by
  simp [mapInsert, List.mem_filter]

theorem mem_of_mapLookup (k : String) (v : Mach) (l : List (String × Mach))
    (h : mapLookup k l = some v) : (k, v) ∈ l := by
  induction l with
  | nil => simp [mapLookup] at h
  | cons p l ih =>
    rw [mapLookup_cons] at h
    by_cases hp : p.1 = k
    · simp [hp] at h
      have hpv : p = (k, v) := by
        cases p
        simp_all
      rw [hpv]
      exact List.mem_cons_self (k, v) l
    · simp [hp] at h
      exact List.mem_cons_of_mem p (ih h)

theorem keysNodup_mapInsert (k : String) (v : Mach) (l : List (String × Mach))
    (h : (l.map Prod.fst).Nodup) : ((mapInsert k v l).map Prod.fst).Nodup := by
  simp only [mapInsert, List.map_cons, List.nodup_cons]
  constructor
  · intro hmem
    rcases List.mem_map.1 hmem with ⟨p, hp, hfst⟩
    rcases List.mem_filter.1 hp with ⟨_, hne⟩
    simp at hne
    exact hne hfst
  · exact h.sublist (List.Sublist.map Prod.fst (List.filter_sublist l))

theorem keysNodup_mapDelete (k : String) (l : List (String × Mach))
    (h : (l.map Prod.fst).Nodup) : ((mapDelete k l).map Prod.fst).Nodup :=
  h.sublist (List.Sublist.map Prod.fst (List.filter_sublist l))

/-! The inductive invariant of the Manager registries. -/

/-- Registry invariant of the Manager state: the shared map has no two
entries for one target, each of its entries names a live machine whose
shared flag is set and whose target is its key, machine ids (standing
for Go pointers) are distinct and below the allocator, every live
shared machine still has its own shared-map entry, and every Stop
channel was created with buffer capacity 1. -/
structure MgrInv (s : MgrState) : Prop where
  sharedKeysNodup : (s.sharedMachines.map Prod.fst).Nodup
  sharedSub : ∀ p ∈ s.sharedMachines, p.2 ∈ s.machines ∧ p.2.shared = true ∧ p.2.target = p.1
  idsNodup : (s.machines.map Mach.id).Nodup
  idsLt : ∀ m ∈ s.machines, m.id < s.nextId
  sharedComplete : ∀ m ∈ s.machines, m.shared = true →
    mapLookup m.target s.sharedMachines = some m
  capOne : ∀ m ∈ s.machines, m.stopChanCap = 1

theorem mach_eq_of_id_eq {l : List Mach} (h : (l.map Mach.id).Nodup)
    {a b : Mach} (ha : a ∈ l) (hb : b ∈ l) (hid : a.id = b.id) : a = b :=
  List.inj_on_of_nodup_map h ha hb hid

theorem initState_inv : MgrInv initState := by
  constructor <;> simp [initState]

theorem mem_filter_id_ne {l : List Mach} {m x : Mach} :
    x ∈ l.filter (fun y => y.id != m.id) ↔ x ∈ l ∧ x.id ≠ m.id := by
  simp [List.mem_filter]

/-! Branch equations of handleNewChannel. -/

theorem handleNewChannel_notTcpip (provs : ProviderTable) (s : MgrState) (e : NewChanEvent)
    (h : e.chanType ≠ "direct-tcpip") :
    handleNewChannel provs s e = (s, [.reject .unknownChannelType "unsuported channel type"]) := by
  simp [handleNewChannel, h]

theorem handleNewChannel_badPayload (provs : ProviderTable) (s : MgrState) (e : NewChanEvent)
    (h1 : e.chanType = "direct-tcpip") (h2 : e.payload = none) :
    handleNewChannel provs s e = (s, [.reject .prohibited "invalid direct-tcpip parameters"]) := by
  simp [handleNewChannel, h1, h2]

theorem handleNewChannel_unknownTarget (provs : ProviderTable) (s : MgrState) (e : NewChanEvent)
    (input : ChannelOpenDirectMsg)
    (h1 : e.chanType = "direct-tcpip") (h2 : e.payload = some input)
    (h3 : provs input.remoteAddr = none) :
    handleNewChannel provs s e = (s, [.reject .connectionFailed "unknown remote address"]) := by
  simp [handleNewChannel, h1, h2, h3]

theorem handleNewChannel_reuse (provs : ProviderTable) (s : MgrState) (e : NewChanEvent)
    (input : ChannelOpenDirectMsg) (mach : Mach)
    (h1 : e.chanType = "direct-tcpip") (h2 : e.payload = some input)
    (h3 : provs input.remoteAddr = some true)
    (h4 : mapLookup input.remoteAddr s.sharedMachines = some mach) :
    handleNewChannel provs s e = (s, [.spawnConnect mach input]) := by
  simp [handleNewChannel, h1, h2, h3, h4]

/-- The machine record built by handleNewChannel when no shared machine
is reused, before the shared flag is recorded. -/
def newMach (s : MgrState) (target : String) (isShared : Bool) : Mach :=
  { id := s.nextId, target := target, shared := isShared, stopChanCap := 1 }

theorem handleNewChannel_createShared (provs : ProviderTable) (s : MgrState) (e : NewChanEvent)
    (input : ChannelOpenDirectMsg)
    (h1 : e.chanType = "direct-tcpip") (h2 : e.payload = some input)
    (h3 : provs input.remoteAddr = some true)
    (h4 : mapLookup input.remoteAddr s.sharedMachines = none) :
    handleNewChannel provs s e =
      ({ machines := newMach s input.remoteAddr true :: s.machines
         sharedMachines := mapInsert input.remoteAddr (newMach s input.remoteAddr true) s.sharedMachines
         stopping := s.stopping
         nextId := s.nextId + 1 },
       [.spawnRun (newMach s input.remoteAddr true),
        .spawnConnect (newMach s input.remoteAddr true) input]) := by
  simp [handleNewChannel, h1, h2, h3, h4, newMach]

theorem handleNewChannel_createUnshared (provs : ProviderTable) (s : MgrState) (e : NewChanEvent)
    (input : ChannelOpenDirectMsg)
    (h1 : e.chanType = "direct-tcpip") (h2 : e.payload = some input)
    (h3 : provs input.remoteAddr = some false) :
    handleNewChannel provs s e =
      ({ machines := newMach s input.remoteAddr false :: s.machines
         sharedMachines := s.sharedMachines
         stopping := s.stopping
         nextId := s.nextId + 1 },
       [.spawnRun (newMach s input.remoteAddr false),
        .spawnConnect (newMach s input.remoteAddr false) input]) := by
  simp [handleNewChannel, h1, h2, h3, newMach]

theorem handleNewChannel_inv (provs : ProviderTable) (s : MgrState) (e : NewChanEvent)
    (hInv : MgrInv s) : MgrInv (handleNewChannel provs s e).1 := by
  by_cases hty : e.chanType = "direct-tcpip"
  case neg =>
    rw [handleNewChannel_notTcpip provs s e hty]
    exact hInv
  case pos =>
  cases hpay : e.payload with
  | none =>
    rw [handleNewChannel_badPayload provs s e hty hpay]
    exact hInv
  | some input =>
  cases hprov : provs input.remoteAddr with
  | none =>
    rw [handleNewChannel_unknownTarget provs s e input hty hpay hprov]
    exact hInv
  | some isShared =>
  cases isShared with
  | false =>
    rw [handleNewChannel_createUnshared provs s e input hty hpay hprov]
    refine ⟨hInv.sharedKeysNodup, ?_, ?_, ?_, ?_, ?_⟩
    · intro p hp
      rcases hInv.sharedSub p hp with ⟨h1, h2, h3⟩
      exact ⟨List.mem_cons_of_mem _ h1, h2, h3⟩
    · simp only [List.map_cons, List.nodup_cons]
      refine ⟨?_, hInv.idsNodup⟩
      intro hmem
      rcases List.mem_map.1 hmem with ⟨x, hx, hxid⟩
      exact absurd hxid (Nat.ne_of_lt (hInv.idsLt x hx))
    · intro x hx
      rcases List.mem_cons.1 hx with hx | hx
      · subst hx; exact Nat.lt_succ_self _
      · exact Nat.lt_succ_of_lt (hInv.idsLt x hx)
    · intro x hx hxsh
      rcases List.mem_cons.1 hx with hx | hx
      · rw [hx] at hxsh
        simp [newMach] at hxsh
      · exact hInv.sharedComplete x hx hxsh
    · intro x hx
      rcases List.mem_cons.1 hx with hx | hx
      · subst hx; rfl
      · exact hInv.capOne x hx
  | true =>
  cases hex : mapLookup input.remoteAddr s.sharedMachines with
  | some mach =>
    rw [handleNewChannel_reuse provs s e input mach hty hpay hprov hex]
    exact hInv
  | none =>
    rw [handleNewChannel_createShared provs s e input hty hpay hprov hex]
    refine ⟨?_, ?_, ?_, ?_, ?_, ?_⟩
    · exact keysNodup_mapInsert _ _ _ hInv.sharedKeysNodup
    · intro p hp
      rcases (mem_mapInsert _ _ _ _).1 hp with hpe | ⟨hpl, hpk⟩
      · subst hpe
        exact ⟨List.mem_cons_self _ _, rfl, rfl⟩
      · rcases hInv.sharedSub p hpl with ⟨h1, h2, h3⟩
        exact ⟨List.mem_cons_of_mem _ h1, h2, h3⟩
    · simp only [List.map_cons, List.nodup_cons]
      refine ⟨?_, hInv.idsNodup⟩
      intro hmem
      rcases List.mem_map.1 hmem with ⟨x, hx, hxid⟩
      exact absurd hxid (Nat.ne_of_lt (hInv.idsLt x hx))
    · intro x hx
      rcases List.mem_cons.1 hx with hx | hx
      · subst hx; exact Nat.lt_succ_self _
      · exact Nat.lt_succ_of_lt (hInv.idsLt x hx)
    · intro x hx hxsh
      rcases List.mem_cons.1 hx with hx | hx
      · subst hx
        exact mapLookup_insert_self _ _ _
      · have hlook := hInv.sharedComplete x hx hxsh
        by_cases htgt : x.target = input.remoteAddr
        · rw [htgt] at hlook
          rw [hlook] at hex
          cases hex
        · rw [mapLookup_insert_ne _ _ _ _ htgt]
          exact hlook
    · intro x hx
      rcases List.mem_cons.1 hx with hx | hx
      · subst hx; rfl
      · exact hInv.capOne x hx

theorem handleMachineStopped_inv (s : MgrState) (m : Mach)
    (hm : m ∈ s.machines) (hInv : MgrInv s) : MgrInv (handleMachineStopped s m).1 := by
  unfold handleMachineStopped
  refine ⟨?_, ?_, ?_, ?_, ?_, ?_⟩
  · by_cases hsh : m.shared
    · simpa [hsh] using keysNodup_mapDelete m.target _ hInv.sharedKeysNodup
    · simpa [hsh] using hInv.sharedKeysNodup
  · intro p hp
    by_cases hsh : m.shared
    · simp only [hsh, if_true] at hp
      rcases (mem_mapDelete _ _ _).1 hp with ⟨hpl, hpk⟩
      rcases hInv.sharedSub p hpl with ⟨h1, h2, h3⟩
      refine ⟨mem_filter_id_ne.2 ⟨h1, ?_⟩, h2, h3⟩
      intro hid
      have hpm : p.2 = m := mach_eq_of_id_eq hInv.idsNodup h1 hm hid
      exact hpk (by rw [← h3, hpm])
    · simp only [hsh, if_false] at hp
      rcases hInv.sharedSub p hp with ⟨h1, h2, h3⟩
      refine ⟨mem_filter_id_ne.2 ⟨h1, ?_⟩, h2, h3⟩
      intro hid
      have hpm : p.2 = m := mach_eq_of_id_eq hInv.idsNodup h1 hm hid
      rw [hpm] at h2
      exact hsh h2
  · exact hInv.idsNodup.sublist (List.Sublist.map Mach.id (List.filter_sublist _))
  · intro x hx
    exact hInv.idsLt x (mem_filter_id_ne.1 hx).1
  · intro x hx hxsh
    rcases mem_filter_id_ne.1 hx with ⟨hxl, hxid⟩
    have hlook := hInv.sharedComplete x hxl hxsh
    by_cases hsh : m.shared
    · simp only [hsh, if_true]
      by_cases htgt : x.target = m.target
      · exfalso
        have hlookm := hInv.sharedComplete m hm hsh
        rw [htgt] at hlook
        rw [hlook] at hlookm
        have : x = m := by
          injection hlookm
        exact hxid (by rw [this])
      · rw [mapLookup_delete_ne _ _ _ htgt]
        exact hlook
    · simpa [hsh] using hlook
  · intro x hx
    exact hInv.capOne x (mem_filter_id_ne.1 hx).1

theorem mgrStep_inv (provs : ProviderTable) (s : MgrState) (ev : MgrEvent)
    (hv : ValidEvent s ev) (hInv : MgrInv s) : MgrInv (mgrStep provs s ev).1 := by
  match ev with
  | .newChan e =>
    unfold mgrStep
    by_cases hst : s.stopping = none
    · simpa [hst] using handleNewChannel_inv provs s e hInv
    · simpa [hst] using hInv
  | .machStopped m =>
    exact handleMachineStopped_inv s m hv hInv
  | .stopReq r =>
    unfold mgrStep
    by_cases hst : s.stopping = none
    · simp only [hst, if_true]
      exact ⟨hInv.sharedKeysNodup, hInv.sharedSub, hInv.idsNodup, hInv.idsLt,
        hInv.sharedComplete, hInv.capOne⟩
    · simp only [hst, if_false]
      exact ⟨hInv.sharedKeysNodup, hInv.sharedSub, hInv.idsNodup, hInv.idsLt,
        hInv.sharedComplete, hInv.capOne⟩

theorem reachable_inv (provs : ProviderTable) (s : MgrState)
    (h : Reachable provs s) : MgrInv s := by
  induction h with
  | init => exact initState_inv
  | step s ev _ _ hv ih => exact mgrStep_inv provs s ev hv ih

/-! Helper predicates on Manager actions. -/

def isSpawnRun : MgrAction → Bool
  | .spawnRun _ => true
  | _ => false

def isSpawnDrain : MgrAction → Bool
  | .spawnDrain _ => true
  | _ => false

def isReplyStop : MgrAction → Bool
  | .replyStop _ => true
  | _ => false

def isStopSend : MgrAction → Bool
  | .stopSend _ => true
  | _ => false

def isRejectAction : MgrAction → Bool
  | .reject _ _ => true
  | _ => false

/-! Structural lemmas about the Manager step. -/

theorem handleNewChannel_stopping (provs : ProviderTable) (s : MgrState) (e : NewChanEvent) :
    (handleNewChannel provs s e).1.stopping = s.stopping := by
  by_cases hty : e.chanType = "direct-tcpip"
  case neg => rw [handleNewChannel_notTcpip provs s e hty]
  case pos =>
  cases hpay : e.payload with
  | none => rw [handleNewChannel_badPayload provs s e hty hpay]
  | some input =>
  cases hprov : provs input.remoteAddr with
  | none => rw [handleNewChannel_unknownTarget provs s e input hty hpay hprov]
  | some isShared =>
  cases isShared with
  | false => rw [handleNewChannel_createUnshared provs s e input hty hpay hprov]
  | true =>
  cases hex : mapLookup input.remoteAddr s.sharedMachines with
  | some mach => rw [handleNewChannel_reuse provs s e input mach hty hpay hprov hex]
  | none => rw [handleNewChannel_createShared provs s e input hty hpay hprov hex]

theorem handleNewChannel_actions_shape (provs : ProviderTable) (s : MgrState) (e : NewChanEvent) :
    ∀ a ∈ (handleNewChannel provs s e).2,
      isReplyStop a = false ∧ isStopSend a = false ∧ isSpawnDrain a = false := by
  by_cases hty : e.chanType = "direct-tcpip"
  case neg =>
    rw [handleNewChannel_notTcpip provs s e hty]
    intro a ha
    simp at ha
    subst ha
    exact ⟨rfl, rfl, rfl⟩
  case pos =>
  cases hpay : e.payload with
  | none =>
    rw [handleNewChannel_badPayload provs s e hty hpay]
    intro a ha
    simp at ha
    subst ha
    exact ⟨rfl, rfl, rfl⟩
  | some input =>
  cases hprov : provs input.remoteAddr with
  | none =>
    rw [handleNewChannel_unknownTarget provs s e input hty hpay hprov]
    intro a ha
    simp at ha
    subst ha
    exact ⟨rfl, rfl, rfl⟩
  | some isShared =>
  cases isShared with
  | false =>
    rw [handleNewChannel_createUnshared provs s e input hty hpay hprov]
    intro a ha
    simp at ha
    rcases ha with ha | ha <;> subst ha <;> exact ⟨rfl, rfl, rfl⟩
  | true =>
  cases hex : mapLookup input.remoteAddr s.sharedMachines with
  | some mach =>
    rw [handleNewChannel_reuse provs s e input mach hty hpay hprov hex]
    intro a ha
    simp at ha
    subst ha
    exact ⟨rfl, rfl, rfl⟩
  | none =>
    rw [handleNewChannel_createShared provs s e input hty hpay hprov hex]
    intro a ha
    simp at ha
    rcases ha with ha | ha <;> subst ha <;> exact ⟨rfl, rfl, rfl⟩

theorem mgrStep_no_replyStop (provs : ProviderTable) (s : MgrState) (ev : MgrEvent) :
    ∀ a ∈ (mgrStep provs s ev).2, isReplyStop a = false := by
  cases ev with
  | newChan e =>
    unfold mgrStep
    by_cases hst : s.stopping = none
    · simp only [hst, if_true]
      intro a ha
      exact (handleNewChannel_actions_shape provs s e a ha).1
    · simp only [hst, if_false]
      intro a ha
      simp at ha
      subst ha
      rfl
  | machStopped m =>
    intro a ha
    simp [mgrStep, handleMachineStopped] at ha
    subst ha
    rfl
  | stopReq r =>
    unfold mgrStep
    by_cases hst : s.stopping = none
    · simp only [hst, if_true]
      intro a ha
      rcases List.mem_map.1 ha with ⟨x, _, hax⟩
      subst hax
      rfl
    · simp only [hst, if_false]
      intro a ha
      simp at ha

theorem mgrStep_stopping_isSome (provs : ProviderTable) (s : MgrState) (ev : MgrEvent)
    (h : s.stopping ≠ none) : (mgrStep provs s ev).1.stopping ≠ none := by
  cases ev with
  | newChan e =>
    unfold mgrStep
    simp only [h, if_false]
    exact h
  | machStopped m =>
    simpa [mgrStep, handleMachineStopped] using h
  | stopReq r =>
    unfold mgrStep
    simp only [h, if_false]
    cases hst : s.stopping with
    | none => exact absurd hst h
    | some l => simp [hst]

theorem mgrStep_stopping_mem (provs : ProviderTable) (s : MgrState) (ev : MgrEvent)
    (r : Nat) (h : r ∈ s.stopping.getD []) :
    r ∈ (mgrStep provs s ev).1.stopping.getD [] := by
  cases ev with
  | newChan e =>
    unfold mgrStep
    by_cases hst : s.stopping = none
    · simp only [hst, if_true]
      rw [handleNewChannel_stopping provs s e]
      exact h
    · simp only [hst, if_false]
      exact h
  | machStopped m =>
    simp only [mgrStep, handleMachineStopped]
    exact h
  | stopReq r2 =>
    unfold mgrStep
    cases hst : s.stopping with
    | none => simp [hst] at h
    | some l =>
      simp only [hst]
      simp [hst] at h
      simp [List.mem_append, h]

theorem filter_id_ne_length {l : List Mach} {m : Mach}
    (hnd : (l.map Mach.id).Nodup) (hm : m ∈ l) :
    (l.filter (fun x => x.id != m.id)).length + 1 = l.length := by
  have hcount : (l.map Mach.id).count m.id = 1 :=
    List.count_eq_one_of_mem hnd (List.mem_map_of_mem Mach.id hm)
  have h1 : l.countP (fun x => x.id == m.id) = 1 := by
    have h0 : List.countP ((fun n : Nat => n == m.id) ∘ Mach.id) l = 1 := by
      rw [← List.countP_map]
      simpa [List.count_eq_countP] using hcount
    simpa [Function.comp] using h0
  have h2 := List.length_eq_countP_add_countP (p := fun x => x.id == m.id) (l := l)
  have h3 : l.countP (fun x => !(x.id == m.id)) = l.countP (fun x => x.id != m.id) := by
    rfl
  have h4 : (l.filter (fun x => x.id != m.id)).length = l.countP (fun x => x.id != m.id) :=
    (List.countP_eq_length_filter _ _).symm
  rw [h4, ← h3]
  have h5 : l.countP (fun a => ¬(a.id == m.id) = true) = l.countP (fun x => !(x.id == m.id)) := by
    apply List.countP_congr
    intro x _
    cases hx : x.id == m.id <;> simp [hx]
  omega

theorem mgrStep_machine_count (provs : ProviderTable) (s : MgrState) (ev : MgrEvent)
    (hv : ValidEvent s ev) (hInv : MgrInv s) :
    (mgrStep provs s ev).1.machines.length + ((mgrStep provs s ev).2.countP isSpawnDrain)
      = s.machines.length + ((mgrStep provs s ev).2.countP isSpawnRun) := by
  cases ev with
  | newChan e =>
    unfold mgrStep
    by_cases hst : s.stopping = none
    case neg => simp [hst, isSpawnDrain, isSpawnRun, List.countP_cons]
    case pos =>
    simp only [hst, if_true]
    by_cases hty : e.chanType = "direct-tcpip"
    case neg => simp [handleNewChannel_notTcpip provs s e hty, isSpawnDrain, isSpawnRun, List.countP_cons]
    case pos =>
    cases hpay : e.payload with
    | none => simp [handleNewChannel_badPayload provs s e hty hpay, isSpawnDrain, isSpawnRun, List.countP_cons]
    | some input =>
    cases hprov : provs input.remoteAddr with
    | none => simp [handleNewChannel_unknownTarget provs s e input hty hpay hprov, isSpawnDrain, isSpawnRun, List.countP_cons]
    | some isShared =>
    cases isShared with
    | false =>
      simp [handleNewChannel_createUnshared provs s e input hty hpay hprov,
        isSpawnDrain, isSpawnRun, List.countP_cons]
    | true =>
    cases hex : mapLookup input.remoteAddr s.sharedMachines with
    | some mach =>
      simp [handleNewChannel_reuse provs s e input mach hty hpay hprov hex,
        isSpawnDrain, isSpawnRun, List.countP_cons]
    | none =>
      simp [handleNewChannel_createShared provs s e input hty hpay hprov hex,
        isSpawnDrain, isSpawnRun, List.countP_cons]
  | machStopped m =>
    have hm : m ∈ s.machines := hv
    have := filter_id_ne_length hInv.idsNodup hm
    simp only [mgrStep, handleMachineStopped]
    simp [isSpawnDrain, isSpawnRun, List.countP_cons]
    omega
  | stopReq r =>
    unfold mgrStep
    by_cases hst : s.stopping = none
    · simp only [hst, if_true]
      have hzero : ∀ (l : List Mach), (l.map MgrAction.stopSend).countP isSpawnDrain = 0
          ∧ (l.map MgrAction.stopSend).countP isSpawnRun = 0 := by
        intro l
        constructor <;>
          · rw [List.countP_map]
            apply List.countP_eq_zero.2
            intro x _
            simp [isSpawnDrain, isSpawnRun]
      simp [(hzero s.machines).1, (hzero s.machines).2]
    · simp [hst, isSpawnDrain, isSpawnRun]

/-! Lemmas about whole runs of the Manager goroutine. -/

theorem stopReplies_shape (s : MgrState) :
    ∀ a ∈ stopReplies s, isSpawnRun a = false ∧ isSpawnDrain a = false ∧ isStopSend a = false := by
  intro a ha
  rcases List.mem_map.1 ha with ⟨x, _, hax⟩
  subst hax
  exact ⟨rfl, rfl, rfl⟩

theorem mem_stopReplies (s : MgrState) (r : Nat) :
    MgrAction.replyStop r ∈ stopReplies s ↔ r ∈ s.stopping.getD [] := by
  unfold stopReplies
  constructor
  · intro h
    rcases List.mem_map.1 h with ⟨x, hx, hax⟩
    injection hax with hh
    rw [← hh]
    exact hx
  · intro h
    exact List.mem_map_of_mem _ h

theorem mgrRun_nil_exit (provs : ProviderTable) (s : MgrState) (h : loopExit s = true) :
    mgrRun provs s [] = (s, stopReplies s) := by
  simp [mgrRun, h]

theorem mgrRun_nil_live (provs : ProviderTable) (s : MgrState) (h : loopExit s = false) :
    mgrRun provs s [] = (s, []) := by
  simp [mgrRun, h]

theorem mgrRun_cons_exit (provs : ProviderTable) (s : MgrState) (ev : MgrEvent)
    (tr : List MgrEvent) (h : loopExit s = true) :
    mgrRun provs s (ev :: tr) = (s, stopReplies s) := by
  simp [mgrRun, h]

theorem mgrRun_cons_live (provs : ProviderTable) (s : MgrState) (ev : MgrEvent)
    (tr : List MgrEvent) (h : loopExit s = false) :
    mgrRun provs s (ev :: tr) =
      ((mgrRun provs (mgrStep provs s ev).1 tr).1,
        (mgrStep provs s ev).2 ++ (mgrRun provs (mgrStep provs s ev).1 tr).2) := by
  simp [mgrRun, h]

theorem run_replies (provs : ProviderTable) :
    ∀ (tr : List MgrEvent) (s : MgrState) (r : Nat),
      MgrAction.replyStop r ∈ (mgrRun provs s tr).2 ↔
        (loopExit (mgrRun provs s tr).1 = true ∧
          r ∈ ((mgrRun provs s tr).1.stopping.getD [])) := by
  intro tr
  induction tr with
  | nil =>
    intro s r
    cases hex : loopExit s with
    | true =>
      rw [mgrRun_nil_exit provs s hex]
      simp [mem_stopReplies, hex]
    | false =>
      rw [mgrRun_nil_live provs s hex]
      simp [hex]
  | cons ev rest ih =>
    intro s r
    cases hex : loopExit s with
    | true =>
      rw [mgrRun_cons_exit provs s ev rest hex]
      simp [mem_stopReplies, hex]
    | false =>
      rw [mgrRun_cons_live provs s ev rest hex]
      simp only [List.mem_append]
      have hno : MgrAction.replyStop r ∉ (mgrStep provs s ev).2 := by
        intro hmem
        have := mgrStep_no_replyStop provs s ev _ hmem
        simp [isReplyStop] at this
      constructor
      · intro h
        rcases h with h | h
        · exact absurd h hno
        · exact (ih (mgrStep provs s ev).1 r).1 h
      · intro h
        exact Or.inr ((ih (mgrStep provs s ev).1 r).2 h)

theorem run_stopping_mono (provs : ProviderTable) :
    ∀ (tr : List MgrEvent) (s : MgrState) (r : Nat), r ∈ s.stopping.getD [] →
      r ∈ (mgrRun provs s tr).1.stopping.getD [] := by
  intro tr
  induction tr with
  | nil =>
    intro s r h
    cases hex : loopExit s with
    | true =>
      rw [mgrRun_nil_exit provs s hex]
      exact h
    | false =>
      rw [mgrRun_nil_live provs s hex]
      exact h
  | cons ev rest ih =>
    intro s r h
    cases hex : loopExit s with
    | true =>
      rw [mgrRun_cons_exit provs s ev rest hex]
      exact h
    | false =>
      rw [mgrRun_cons_live provs s ev rest hex]
      exact ih _ r (mgrStep_stopping_mem provs s ev r h)

theorem run_machine_count (provs : ProviderTable) :
    ∀ (tr : List MgrEvent) (s : MgrState), MgrInv s → ValidTrace provs s tr →
      (mgrRun provs s tr).1.machines.length + ((mgrRun provs s tr).2.countP isSpawnDrain)
        = s.machines.length + ((mgrRun provs s tr).2.countP isSpawnRun) := by
  have hreplies : ∀ s : MgrState, (stopReplies s).countP isSpawnDrain = 0
      ∧ (stopReplies s).countP isSpawnRun = 0 := by
    intro s
    constructor
    · exact List.countP_eq_zero.2 (fun a ha => by simp [(stopReplies_shape s a ha).2.1])
    · exact List.countP_eq_zero.2 (fun a ha => by simp [(stopReplies_shape s a ha).1])
  intro tr
  induction tr with
  | nil =>
    intro s _ _
    cases hex : loopExit s with
    | true =>
      rw [mgrRun_nil_exit provs s hex]
      rw [(hreplies s).1, (hreplies s).2]
    | false =>
      rw [mgrRun_nil_live provs s hex]
      simp
  | cons ev rest ih =>
    intro s hInv hvt
    cases hex : loopExit s with
    | true =>
      rw [mgrRun_cons_exit provs s ev rest hex]
      rw [(hreplies s).1, (hreplies s).2]
    | false =>
      cases hvt with
      | exited _ _ _ hex2 =>
        rw [hex2] at hex
        cases hex
      | cons _ _ _ hex2 hv hvt2 =>
        rw [mgrRun_cons_live provs s ev rest hex]
        simp only [List.countP_append]
        have hstep := mgrStep_machine_count provs s ev hv hInv
        have hrest := ih (mgrStep provs s ev).1 (mgrStep_inv provs s ev hv hInv) hvt2
        omega

theorem stopSend_injective : Function.Injective MgrAction.stopSend := by
  intro a b h
  injection h

theorem count_stopSend_zero_of_shape {acts : List MgrAction} {m : Mach}
    (h : ∀ a ∈ acts, isStopSend a = false) : acts.count (MgrAction.stopSend m) = 0 := by
  rw [List.count_eq_zero]
  intro hmem
  have := h _ hmem
  simp [isStopSend] at this

theorem mgrStep_stopping_of_nonStop (provs : ProviderTable) (s : MgrState) :
    ∀ ev : MgrEvent, (∀ r, ev ≠ .stopReq r) →
      (mgrStep provs s ev).1.stopping = s.stopping := by
  intro ev hne
  cases ev with
  | newChan e =>
    simp only [mgrStep]
    by_cases hst : s.stopping = none
    · rw [if_pos hst]
      exact handleNewChannel_stopping provs s e
    · rw [if_neg hst]
  | machStopped m => rfl
  | stopReq r => exact absurd rfl (hne r)

theorem run_stopSend_bound (provs : ProviderTable) :
    ∀ (tr : List MgrEvent) (s : MgrState) (m : Mach), MgrInv s → ValidTrace provs s tr →
      ((mgrRun provs s tr).2.count (MgrAction.stopSend m))
        ≤ (if s.stopping = none then 1 else 0) := by
  intro tr
  induction tr with
  | nil =>
    intro s m _ _
    cases hex : loopExit s with
    | true =>
      rw [mgrRun_nil_exit provs s hex]
      have hz := count_stopSend_zero_of_shape (m := m)
        (fun a ha => (stopReplies_shape s a ha).2.2)
      simp only [hz]
      omega
    | false =>
      rw [mgrRun_nil_live provs s hex]
      simp only [List.count_nil]
      omega
  | cons ev rest ih =>
    intro s m hInv hvt
    cases hex : loopExit s with
    | true =>
      rw [mgrRun_cons_exit provs s ev rest hex]
      have hz := count_stopSend_zero_of_shape (m := m)
        (fun a ha => (stopReplies_shape s a ha).2.2)
      simp only [hz]
      omega
    | false =>
      cases hvt with
      | exited _ _ _ hex2 =>
        rw [hex2] at hex
        cases hex
      | cons _ _ _ hex2 hv hvt2 =>
        rw [mgrRun_cons_live provs s ev rest hex]
        simp only [List.count_append]
        have hrest := ih (mgrStep provs s ev).1 m (mgrStep_inv provs s ev hv hInv) hvt2
        cases ev with
        | newChan e =>
          have hshape : ∀ a ∈ (mgrStep provs s (.newChan e)).2, isStopSend a = false := by
            intro a ha
            simp only [mgrStep] at ha
            by_cases hst : s.stopping = none
            · rw [if_pos hst] at ha
              exact (handleNewChannel_actions_shape provs s e a ha).2.1
            · rw [if_neg hst] at ha
              simp at ha
              subst ha
              rfl
          have hz := count_stopSend_zero_of_shape (m := m) hshape
          rw [mgrStep_stopping_of_nonStop provs s (.newChan e) (fun r h => by cases h)] at hrest
          omega
        | machStopped m2 =>
          have hz : (mgrStep provs s (.machStopped m2)).2.count (MgrAction.stopSend m) = 0 := by
            apply count_stopSend_zero_of_shape
            intro a ha
            simp [mgrStep, handleMachineStopped] at ha
            subst ha
            rfl
          rw [mgrStep_stopping_of_nonStop provs s (.machStopped m2) (fun r h => by cases h)] at hrest
          omega
        | stopReq r =>
          by_cases hst : s.stopping = none
          · have hacts : (mgrStep provs s (.stopReq r)).2 = s.machines.map MgrAction.stopSend := by
              simp [mgrStep, hst]
            have hcount : (s.machines.map MgrAction.stopSend).count (MgrAction.stopSend m)
                = s.machines.count m :=
              List.count_map_of_injective s.machines MgrAction.stopSend stopSend_injective m
            have hle : s.machines.count m ≤ 1 :=
              List.nodup_iff_count_le_one.1 (hInv.idsNodup.of_map) m
            have hstop2 : (mgrStep provs s (.stopReq r)).1.stopping = some [r] := by
              simp [mgrStep, hst]
            rw [hstop2] at hrest
            rw [hacts, hcount, if_pos hst]
            have hz : (if (some [r] : Option (List Nat)) = none then 1 else 0) = 0 := by simp
            omega
          · have hacts : (mgrStep provs s (.stopReq r)).2 = [] := by
              simp [mgrStep, hst]
            have hstop2 : (mgrStep provs s (.stopReq r)).1.stopping ≠ none :=
              mgrStep_stopping_isSome provs s _ hst
            rw [hacts, if_neg hst]
            simp only [List.count_nil]
            rw [if_neg hstop2] at hrest
            omega

theorem keys_countP_le_one {l : List (String × Mach)} {t : String}
    (h : (l.map Prod.fst).Nodup) : l.countP (fun p => p.1 == t) ≤ 1 := by
  have h0 : (l.map Prod.fst).count t = List.countP ((fun x : String => x == t) ∘ Prod.fst) l := by
    rw [List.count_eq_countP, List.countP_map]
  have h1 : List.countP ((fun x : String => x == t) ∘ Prod.fst) l
      = l.countP (fun p => p.1 == t) := rfl
  have h2 := List.nodup_iff_count_le_one.1 h t
  omega

/-! Concrete fixtures used by the witnesses: one shared target t1. -/

def provs0 : ProviderTable := fun a => if a = "t1" then some true else none

def input1 : ChannelOpenDirectMsg :=
  { remoteAddr := "t1", remotePort := 22, localAddr := "client", localPort := 9 }

def e1 : NewChanEvent := { chanType := "direct-tcpip", payload := some input1 }

def s1 : MgrState := (mgrStep provs0 initState (.newChan e1)).1

def mach1 : Mach := { id := 0, target := "t1", shared := true, stopChanCap := 1 }

theorem reachable_s1 : Reachable provs0 s1 :=
  Reachable.step initState (.newChan e1) Reachable.init rfl trivial

/-- C1: in every state reachable by the Manager event loop, the shared
map has at most one entry per target address, every machine it holds is
in the all-machines index with its shared flag set and its target equal
to its key, and a channel open for a shared target with an existing
entry reuses that machine: the step leaves the state unchanged and only
spawns a connector, no provider run goroutine. -/
theorem c1_shared_machine_unique_and_reused (provs : ProviderTable) (s : MgrState)
    (hreach : Reachable provs s) :
    (∀ t : String, s.sharedMachines.countP (fun p => p.1 == t) ≤ 1)
    ∧ (∀ p ∈ s.sharedMachines, p.2 ∈ s.machines ∧ p.2.shared = true ∧ p.2.target = p.1)
    ∧ (∀ (e : NewChanEvent) (input : ChannelOpenDirectMsg) (mach : Mach),
        s.stopping = none → e.chanType = "direct-tcpip" → e.payload = some input →
        provs input.remoteAddr = some true →
        mapLookup input.remoteAddr s.sharedMachines = some mach →
        mgrStep provs s (.newChan e) = (s, [.spawnConnect mach input])) := by
  have hInv := reachable_inv provs s hreach
  refine ⟨fun t => keys_countP_le_one hInv.sharedKeysNodup, hInv.sharedSub, ?_⟩
  intro e input mach hstop hty hpay hprov hlook
  simp only [mgrStep]
  rw [if_pos hstop]
  exact handleNewChannel_reuse provs s e input mach hty hpay hprov hlook

/-- Witness for C1 at a concrete reachable state holding one shared
machine for target t1: a second open for t1 reuses that machine. -/
theorem c1_shared_machine_unique_and_reused_witness :
    mgrStep provs0 s1 (.newChan e1) = (s1, [.spawnConnect mach1 input1]) := by
  have h := c1_shared_machine_unique_and_reused provs0 s1 reachable_s1
  exact h.2.2 e1 input1 mach1 (by decide) (by decide) (by decide) (by decide) (by decide)

/-- Modelled from the spec: on a machine-stopped event the shared-map
entry for the machine target is removed iff the map still points at
this exact machine, and an entry for the same target pointing at a
different machine is left untouched. -/
def specSharedRemoval (sm : List (String × Mach)) (m : Mach) : List (String × Mach) :=
  if m.shared then
    if mapLookup m.target sm = some m then mapDelete m.target sm else sm
  else sm

/-- C6: on a machine-stopped event the Manager removes exactly that
machine from the all-machines index, and its update of the shared map
coincides with the conditional removal the spec describes: in every
reachable state the entry for the machine target still points at this
exact machine when its shared flag is set, so the unconditional delete
in the code equals the spec conditional delete. -/
theorem c6_machine_stopped_cleanup (provs : ProviderTable) (s : MgrState) (m : Mach)
    (hreach : Reachable provs s) (hm : m ∈ s.machines) :
    m ∉ (handleMachineStopped s m).1.machines
    ∧ (∀ x ∈ s.machines, x ≠ m → x ∈ (handleMachineStopped s m).1.machines)
    ∧ (∀ x ∈ (handleMachineStopped s m).1.machines, x ∈ s.machines)
    ∧ (m.shared = true → mapLookup m.target s.sharedMachines = some m)
    ∧ (handleMachineStopped s m).1.sharedMachines = specSharedRemoval s.sharedMachines m := by
  have hInv := reachable_inv provs s hreach
  refine ⟨?_, ?_, ?_, hInv.sharedComplete m hm, ?_⟩
  · intro hmem
    exact (mem_filter_id_ne.1 hmem).2 rfl
  · intro x hx hne
    refine mem_filter_id_ne.2 ⟨hx, ?_⟩
    intro hid
    exact hne (mach_eq_of_id_eq hInv.idsNodup hx hm hid)
  · intro x hx
    exact (mem_filter_id_ne.1 hx).1
  · unfold handleMachineStopped specSharedRemoval
    cases hsh : m.shared with
    | true =>
      have hlook := hInv.sharedComplete m hm hsh
      simp [hlook]
    | false => simp

/-- Witness for C6 at the concrete reachable state holding the shared
machine mach1: the machine is removed and the shared map update matches
the spec conditional removal. -/
theorem c6_machine_stopped_cleanup_witness :
    (handleMachineStopped s1 mach1).1.sharedMachines = specSharedRemoval s1.sharedMachines mach1
    ∧ mach1 ∉ (handleMachineStopped s1 mach1).1.machines := by
  have h := c6_machine_stopped_cleanup provs0 s1 mach1 reachable_s1 (by decide)
  exact ⟨h.2.2.2.2, h.1⟩

/-- C7 (amended): the channel rejection protocol of handleNewChannel for
events processed before shutdown, with the reason strings of the code:
non-direct-tcpip channels are rejected UNKNOWN_CHANNEL_TYPE, parse
failures are rejected PROHIBITED with reason invalid direct-tcpip
parameters, unknown targets are rejected CONNECTION_FAILED with reason
unknown remote address, and otherwise a connector is spawned for a
machine and the Manager rejects nothing. -/
theorem c7_channel_rejection_protocol (provs : ProviderTable) (s : MgrState) (e : NewChanEvent)
    (hstop : s.stopping = none) :
    (e.chanType ≠ "direct-tcpip" →
       mgrStep provs s (.newChan e)
         = (s, [.reject .unknownChannelType "unsuported channel type"]))
    ∧ (e.chanType = "direct-tcpip" → e.payload = none →
       mgrStep provs s (.newChan e)
         = (s, [.reject .prohibited "invalid direct-tcpip parameters"]))
    ∧ (∀ input, e.chanType = "direct-tcpip" → e.payload = some input →
       provs input.remoteAddr = none →
       mgrStep provs s (.newChan e)
         = (s, [.reject .connectionFailed "unknown remote address"]))
    ∧ (∀ input b, e.chanType = "direct-tcpip" → e.payload = some input →
       provs input.remoteAddr = some b →
       ∃ mach, MgrAction.spawnConnect mach input ∈ (mgrStep provs s (.newChan e)).2
         ∧ ∀ a ∈ (mgrStep provs s (.newChan e)).2, isRejectAction a = false) := by
  have hstep : mgrStep provs s (.newChan e) = handleNewChannel provs s e := by
    simp only [mgrStep]
    rw [if_pos hstop]
  refine ⟨?_, ?_, ?_, ?_⟩
  · intro hty
    rw [hstep]
    exact handleNewChannel_notTcpip provs s e hty
  · intro hty hpay
    rw [hstep]
    exact handleNewChannel_badPayload provs s e hty hpay
  · intro input hty hpay hprov
    rw [hstep]
    exact handleNewChannel_unknownTarget provs s e input hty hpay hprov
  · intro input b hty hpay hprov
    rw [hstep]
    cases b with
    | false =>
      rw [handleNewChannel_createUnshared provs s e input hty hpay hprov]
      refine ⟨newMach s input.remoteAddr false, by simp, ?_⟩
      intro a ha
      simp at ha
      rcases ha with ha | ha <;> subst ha <;> rfl
    | true =>
      cases hex : mapLookup input.remoteAddr s.sharedMachines with
      | some mach =>
        rw [handleNewChannel_reuse provs s e input mach hty hpay hprov hex]
        refine ⟨mach, by simp, ?_⟩
        intro a ha
        simp at ha
        subst ha
        rfl
      | none =>
        rw [handleNewChannel_createShared provs s e input hty hpay hprov hex]
        refine ⟨newMach s input.remoteAddr true, by simp, ?_⟩
        intro a ha
        simp at ha
        rcases ha with ha | ha <;> subst ha <;> rfl

def eBad : NewChanEvent := { chanType := "direct-tcpip", payload := none }

/-- Counterexample to C7 as stated: the claim quotes the parse-failure
rejection reason as the two words invalid parameters, but the code
passes the string invalid direct-tcpip parameters to Reject. -/
theorem c7_channel_rejection_protocol_counterexample :
    (mgrStep provs0 initState (.newChan eBad)).2
        = [.reject .prohibited "invalid direct-tcpip parameters"]
    ∧ (mgrStep provs0 initState (.newChan eBad)).2
        ≠ [.reject .prohibited "invalid parameters"] := by
  constructor
  · decide
  · decide

/-- Witness for C7 applied at a concrete event of the wrong channel
type. -/
theorem c7_channel_rejection_protocol_witness :
    mgrStep provs0 initState (.newChan { chanType := "session", payload := none })
      = (initState, [.reject .unknownChannelType "unsuported channel type"]) := by
  have h := c7_channel_rejection_protocol provs0 initState
    { chanType := "session", payload := none } rfl
  exact h.1 (by decide)

/-- C3 (amended): over any deliverable event trace from the initial
state, once the run emits a stop reply (which is how Stop() is woken)
the machines index is empty and every spawned provider run goroutine
has been seen to return (spawnRun and spawnDrain actions balance); any
channel-open event processed after shutdown has begun is rejected with
PROHIBITED and reason this server is shutting down; and every reply
channel recorded when the loop exits receives a stop reply, so all
concurrent Stop() callers received by the loop are woken together.
Channel opens submitted after the loop has exited are never processed
at all, which is the corrected part of the original claim. -/
theorem c3_shutdown_drains (provs : ProviderTable) (tr : List MgrEvent)
    (hvt : ValidTrace provs initState tr) :
    (∀ r, MgrAction.replyStop r ∈ (mgrRun provs initState tr).2 →
       (mgrRun provs initState tr).1.machines = []
       ∧ (mgrRun provs initState tr).2.countP isSpawnRun
           = (mgrRun provs initState tr).2.countP isSpawnDrain)
    ∧ (∀ (s : MgrState) (e : NewChanEvent), s.stopping ≠ none →
        mgrStep provs s (.newChan e)
          = (s, [.reject .prohibited "this server is shutting down"]))
    ∧ (∀ r r2 l, (mgrRun provs initState tr).1.stopping = some l → r ∈ l →
        MgrAction.replyStop r2 ∈ (mgrRun provs initState tr).2 →
        MgrAction.replyStop r ∈ (mgrRun provs initState tr).2) := by
  refine ⟨?_, ?_, ?_⟩
  · intro r hmem
    have hiff := (run_replies provs tr initState r).1 hmem
    have hempty : (mgrRun provs initState tr).1.machines = [] := by
      have := hiff.1
      unfold loopExit at this
      simp only [Bool.and_eq_true] at this
      exact List.isEmpty_iff.1 this.2
    refine ⟨hempty, ?_⟩
    have hcount := run_machine_count provs tr initState initState_inv hvt
    rw [hempty] at hcount
    have hzero : initState.machines.length = 0 := rfl
    rw [hzero] at hcount
    simp only [List.length_nil] at hcount
    omega
  · intro s e hstop
    simp only [mgrStep]
    rw [if_neg hstop]
  · intro r r2 l hsome hrl hmem
    have hiff := (run_replies provs tr initState r2).1 hmem
    refine (run_replies provs tr initState r).2 ⟨hiff.1, ?_⟩
    rw [hsome]
    exact hrl

/-- Witness for C3: the trace holding exactly one stop request reaches
the exit, wakes the caller, and leaves no machines. -/
theorem c3_shutdown_drains_witness :
    (mgrRun provs0 initState [.stopReq 0]).1.machines = []
    ∧ MgrAction.replyStop 0 ∈ (mgrRun provs0 initState [.stopReq 0]).2 := by
  have hvt : ValidTrace provs0 initState [.stopReq 0] :=
    ValidTrace.cons _ _ _ rfl trivial (ValidTrace.nil _)
  have h := c3_shutdown_drains provs0 [.stopReq 0] hvt
  have hmem : MgrAction.replyStop 0 ∈ (mgrRun provs0 initState [.stopReq 0]).2 := by decide
  exact ⟨(h.1 0 hmem).1, hmem⟩

/-- Counterexample to C3 as stated: in the two-event trace where the
stop request is processed with no machines running, the loop exits and
Stop() returns after the single reply; the channel open submitted next
is never received, so no PROHIBITED rejection (or any other action) is
ever produced for it, while the claim promises one. -/
theorem c3_shutdown_drains_counterexample :
    mgrRun provs0 initState [.stopReq 0, .newChan e1]
      = ({ machines := [], sharedMachines := [], stopping := some [0], nextId := 0 },
         [.replyStop 0])
    ∧ ∀ c reason, MgrAction.reject c reason
        ∉ (mgrRun provs0 initState [.stopReq 0, .newChan e1]).2 := by
  have heq : mgrRun provs0 initState [.stopReq 0, .newChan e1]
      = ({ machines := [], sharedMachines := [], stopping := some [0], nextId := 0 },
         [.replyStop 0]) := by decide
  refine ⟨heq, ?_⟩
  intro c reason h
  rw [heq] at h
  simp at h

/-- C9: every machine Stop channel is created with buffer capacity 1,
over any deliverable trace from the initial state the Manager sends at
most one value into any given machine Stop channel, and a stop request
arriving when shutdown has already begun broadcasts nothing; hence the
broadcast send always finds buffer space and cannot block. -/
theorem c9_stop_broadcast_nonblocking (provs : ProviderTable) (tr : List MgrEvent)
    (hvt : ValidTrace provs initState tr) :
    (∀ s, Reachable provs s → ∀ m ∈ s.machines, m.stopChanCap = 1)
    ∧ (∀ m : Mach, ((mgrRun provs initState tr).2.count (MgrAction.stopSend m)) ≤ 1)
    ∧ (∀ (s : MgrState) (r : Nat), s.stopping ≠ none →
        (mgrStep provs s (.stopReq r)).2 = []) := by
  refine ⟨?_, ?_, ?_⟩
  · intro s hreach m hm
    exact (reachable_inv provs s hreach).capOne m hm
  · intro m
    have h := run_stopSend_bound provs tr initState m initState_inv hvt
    simpa [initState] using h
  · intro s r hstop
    simp [mgrStep, hstop]

/-- Witness for C9: on the trace that starts one machine and then
receives two stop requests, the machine Stop channel sees exactly one
send, within its capacity. -/
theorem c9_stop_broadcast_nonblocking_witness :
    ((mgrRun provs0 initState [.newChan e1, .stopReq 0, .stopReq 1]).2.count
        (MgrAction.stopSend mach1)) ≤ 1
    ∧ mach1.stopChanCap = 1 := by
  have hvt : ValidTrace provs0 initState [.newChan e1, .stopReq 0, .stopReq 1] :=
    ValidTrace.cons _ _ _ rfl trivial
      (ValidTrace.cons _ _ _ rfl trivial
        (ValidTrace.cons _ _ _ rfl trivial (ValidTrace.nil _)))
  have h := c9_stop_broadcast_nonblocking provs0 [.newChan e1, .stopReq 0, .stopReq 1] hvt
  exact ⟨h.2.1 mach1, (h.1 s1 reachable_s1 mach1 (by decide))⟩

/-! The channel-connector goroutine (connectChannel in the manager
package). Its interaction with the environment is reduced to the data
it receives: the Translate reply string, the result of net.Dial, and
the result of Accept on the SSH channel. The function returns the
sequence of observable actions of one execution; the deferred decrement
registered first runs last on every return path. -/

inductive ConnAction where
  | modActive (d : Int)
  | translate (addr : String) (port : Nat)
  | rejectChan (code : RejectReason) (reason : String)
  | dial (addr : String)
  | acceptChan
  | discardRequests
  | copyBoth
  | closeTcp
  | closeChan
deriving DecidableEq, Repr

/-- Environment of one connectChannel execution: the reply received on
the Translate reply channel, the error of net.Dial when it fails, and
whether Accept on the SSH channel succeeds. -/
structure ConnEnv where
  reply : String
  dialErr : Option String
  acceptOk : Bool
deriving DecidableEq, Repr

/-- Translation of connectChannel: increment via incActive, deferred
decrement via decActive, Translate round trip, then the empty-reply,
dial-failure, accept-failure and normal-completion paths of the Go
code in order. -/
def connectChannel (env : ConnEnv) (input : ChannelOpenDirectMsg) : List ConnAction :=
  [ConnAction.modActive 1, ConnAction.translate input.remoteAddr input.remotePort] ++
  (if env.reply = "" then
    [ConnAction.rejectChan .connectionFailed "service not available", ConnAction.modActive (-1)]
  else
    ConnAction.dial env.reply ::
    (match env.dialErr with
     | some msg => [ConnAction.rejectChan .connectionFailed msg, ConnAction.modActive (-1)]
     | none =>
       ConnAction.acceptChan ::
       (if env.acceptOk then
          [ConnAction.discardRequests, ConnAction.copyBoth, ConnAction.closeChan,
           ConnAction.modActive (-1)]
        else
          [ConnAction.closeTcp, ConnAction.modActive (-1)])))

/-- The ModActive deltas a connector execution sends, in order. -/
def modDeltas (tr : List ConnAction) : List Int :=
  tr.filterMap (fun a =>
    match a with
    | ConnAction.modActive d => some d
    | _ => none)

/-- C2: every connectChannel execution sends exactly the deltas +1 then
-1 on ModActive, the +1 first and the -1 last, on every exit path; on
the empty-sentinel reply the channel is rejected CONNECTION_FAILED with
reason service not available before the decrement; the net delta is
zero. -/
theorem c2_activity_conservation (env : ConnEnv) (input : ChannelOpenDirectMsg) :
    modDeltas (connectChannel env input) = [1, -1]
    ∧ (connectChannel env input).head? = some (ConnAction.modActive 1)
    ∧ (connectChannel env input).getLast? = some (ConnAction.modActive (-1))
    ∧ (env.reply = "" →
        connectChannel env input
          = [ConnAction.modActive 1,
             ConnAction.translate input.remoteAddr input.remotePort,
             ConnAction.rejectChan .connectionFailed "service not available",
             ConnAction.modActive (-1)])
    ∧ (modDeltas (connectChannel env input)).sum = 0 := by
  obtain ⟨reply, dialErr, acceptOk⟩ := env
  by_cases hr : reply = ""
  · subst hr
    exact ⟨rfl, rfl, rfl, fun _ => rfl, rfl⟩
  · simp only [connectChannel, if_neg hr]
    cases dialErr with
    | some msg =>
      exact ⟨rfl, rfl, rfl, fun h => absurd h hr, rfl⟩
    | none =>
      cases acceptOk with
      | true => exact ⟨rfl, rfl, rfl, fun h => absurd h hr, rfl⟩
      | false => exact ⟨rfl, rfl, rfl, fun h => absurd h hr, rfl⟩

/-- Witness for C2 on the empty-sentinel path at a concrete input. -/
theorem c2_activity_conservation_witness :
    connectChannel { reply := "", dialErr := none, acceptOk := true } input1
      = [ConnAction.modActive 1, ConnAction.translate "t1" 22,
         ConnAction.rejectChan .connectionFailed "service not available",
         ConnAction.modActive (-1)]
    ∧ modDeltas (connectChannel { reply := "", dialErr := none, acceptOk := true } input1)
      = [1, -1] := by
  have h := c2_activity_conservation { reply := "", dialErr := none, acceptOk := true } input1
  exact ⟨h.2.2.2.1 rfl, h.1⟩

/-! The provider run-loop message loop. The msgLoop functions of the
aws_ec2, hcloud and virtualbox providers share one select structure:
a blocking bootstrap receive of the first ModActive value, an inner
service select while the counter is positive, and a linger select once
it reaches zero. Only the Translate reply string and the timer duration
differ per provider. -/

inductive MsgPhase where
  | boot
  | serving
  | linger
deriving DecidableEq, Repr

inductive MsgEvent where
  | modActive (d : Int)
  | translate (port : Nat)
  | stopSignal
  | timerFire
deriving DecidableEq, Repr

/-- Result of one received message: continue in a phase with a counter
value and possibly a Translate reply sent, or return from msgLoop (the
run loop then proceeds to teardown). -/
inductive MsgOutcome where
  | next (ph : MsgPhase) (active : Int) (reply : Option String)
  | exit
deriving DecidableEq, Repr

/-- One receive of msgLoop, translated from the source. The result none
means the select of that phase has no case for this event, so the loop
cannot receive it there: the bootstrap receive only takes ModActive;
the service select takes ModActive, Translate and Stop; the linger
select takes ModActive and its timer, and nothing else. -/
def msgLoopStep (replyAddr : Nat → String) :
    MsgPhase → Int → MsgEvent → Option MsgOutcome
  | .boot, _, .modActive d =>
      some (if 0 < d then .next .serving d none else .exit)
  | .boot, _, _ => none
  | .serving, active, .modActive d =>
      some (.next (if 0 < active + d then .serving else .linger) (active + d) none)
  | .serving, active, .translate p =>
      some (.next .serving active (some (replyAddr p)))
  | .serving, _, .stopSignal => some .exit
  | .serving, _, .timerFire => none
  | .linger, active, .modActive d =>
      some (if 0 < active + d then .next .serving (active + d) none else .exit)
  | .linger, _, .timerFire => some .exit
  | .linger, _, .stopSignal => none
  | .linger, _, .translate _ => none

/-- The Translate reply of the virtualbox msgLoop, addr:port. -/
def vboxTranslateReply (addr : String) (port : Nat) : String :=
  addr ++ ":" ++ toString port

/-- C4 (amended): the service select handles ModActive, Translate and
Stop, and its Stop case exits to teardown; the linger select handles
only ModActive — resuming the service loop when the updated counter is
positive and exiting otherwise — and the timer, which exits to
teardown. The linger select has no Stop case, so a Stop arriving during
linger is not received by it. -/
theorem c4_linger_select_cases (replyAddr : Nat → String) (active d : Int) (p : Nat) :
    msgLoopStep replyAddr .serving active .stopSignal = some .exit
    ∧ msgLoopStep replyAddr .serving active (.translate p)
        = some (.next .serving active (some (replyAddr p)))
    ∧ msgLoopStep replyAddr .serving active (.modActive d)
        = some (.next (if 0 < active + d then .serving else .linger) (active + d) none)
    ∧ msgLoopStep replyAddr .linger active (.modActive d)
        = some (if 0 < active + d then .next .serving (active + d) none else .exit)
    ∧ msgLoopStep replyAddr .linger active .timerFire = some .exit
    ∧ msgLoopStep replyAddr .linger active .stopSignal = none :=
  ⟨rfl, rfl, rfl, rfl, rfl, rfl⟩

/-- Counterexample to C4 as stated: with the counter at zero in the
linger select, a Stop signal is not among the select cases — it is not
received at all, rather than causing exit to teardown as the claim
states. -/
theorem c4_linger_select_cases_counterexample :
    msgLoopStep (vboxTranslateReply "192.168.0.100") .linger 0 .stopSignal = none
    ∧ msgLoopStep (vboxTranslateReply "192.168.0.100") .linger 0 .stopSignal
        ≠ some MsgOutcome.exit := by
  exact ⟨rfl, by decide⟩

/-! Model of Go time.ParseDuration, used by the aws_ec2, hcloud and
virtualbox factories to parse the linger field. -/

/-- The unit table of time.ParseDuration, in nanoseconds. -/
def unitNs : String → Option Int
  | "ns" => some 1
  | "us" => some 1000
  | "µs" => some 1000
  | "μs" => some 1000
  | "ms" => some 1000000
  | "s" => some 1000000000
  | "m" => some 60000000000
  | "h" => some 3600000000000
  | _ => none

/-- Consume leading decimal digits. -/
def takeDigits : List Char → List Char × List Char
  | [] => ([], [])
  | c :: rest =>
    if c.isDigit then
      let res := takeDigits rest
      (c :: res.1, res.2)
    else ([], c :: rest)

/-- Numeric value of a digit string. -/
def digitsToNat (ds : List Char) : Nat :=
  ds.foldl (fun acc c => acc * 10 + (c.toNat - 48)) 0

/-- Consume the unit token: everything up to the next digit or dot. -/
def takeUnit : List Char → List Char × List Char
  | [] => ([], [])
  | c :: rest =>
    if c.isDigit || c = '.' then ([], c :: rest)
    else
      let res := takeUnit rest
      (c :: res.1, res.2)

/-- One or more number-unit terms of a duration, summed in
nanoseconds. The fuel bounds the recursion; each term consumes at least
one character, so an initial fuel of length+1 never runs out. -/
def parseDurTerms : Nat → List Char → Option Int
  | 0, _ => none
  | _, [] => some 0
  | fuel + 1, c :: cs =>
    if ¬(c.isDigit || c = '.') then none
    else
      let intPart := takeDigits (c :: cs)
      let fracPart :=
        match intPart.2 with
        | '.' :: s => takeDigits s
        | _ => ([], intPart.2)
      if intPart.1 = [] ∧ fracPart.1 = [] then none
      else
        let unitPart := takeUnit fracPart.2
        if unitPart.1 = [] then none
        else
          match unitNs (String.mk unitPart.1) with
          | none => none
          | some u =>
            let v : Int := (digitsToNat intPart.1 : Int) * u
            let k := fracPart.1.length
            let f : Int := (digitsToNat fracPart.1 : Int) * u / ((10 : Int) ^ k)
            match parseDurTerms fuel unitPart.2 with
            | none => none
            | some rest => some (v + f + rest)

/-- Model of Go time.ParseDuration returning nanoseconds; none models a
parse error. The overflow checks of the Go code are omitted, and the
float64 fraction arithmetic is replaced by exact integer arithmetic,
which agrees wherever the fractional contribution is exact; neither
difference matters below, where only whole-unit strings and the failing
empty string are relied on. -/
def goParseDuration (str : String) : Option Int :=
  let cs := str.toList
  let signStripped :=
    match cs with
    | '-' :: rest => (true, rest)
    | '+' :: rest => (false, rest)
    | _ => (false, cs)
  if signStripped.2 = ['0'] then some 0
  else if signStripped.2 = [] then none
  else
    match parseDurTerms (signStripped.2.length + 1) signStripped.2 with
    | none => none
    | some d => some (if signStripped.1 then -d else d)

/-! The linger-relevant fragments of the provider factories. -/

inductive DiagSeverity where
  | diagError
  | diagWarning
deriving DecidableEq, Repr

/-- An hcl diagnostic; the Detail strings of the Go code interpolate
the external error text and are elided, and the quotes inside the
summaries are dropped. -/
structure Diag where
  severity : DiagSeverity
  summary : String
deriving DecidableEq, Repr

/-- diags.HasErrors of the hcl package. -/
def hasErrors (l : List Diag) : Bool :=
  l.any (fun d => d.severity == DiagSeverity.diagError)

/-- The decoded hclTarget fields of the aws_ec2 factory that feed its
diagnostics logic; unset optional fields decode to none and the unset
linger string decodes to the empty string. -/
structure AwsParsed where
  imageId : String
  instanceType : String
  keyName : String
  checkPort : Nat
  shared : Option Bool
  linger : String
deriving DecidableEq, Repr

structure AwsProvider where
  imageId : String
  instanceType : String
  keyName : String
  checkPort : Nat
  shared : Bool
  lingerNs : Int
deriving DecidableEq, Repr

/-- Translation of the aws_ec2 factory NewProvider after a successful
hcl body decode (a failed decode returns early in Go before this
logic). The AWS SDK configuration load is external; awsCfgErr states
whether it reported an error. Returns the provider — none models the
nil returned when the diagnostics contain errors — and the
diagnostics in order of appending. -/
def aws_NewProvider (awsCfgErr : Bool) (parsed : AwsParsed) :
    Option AwsProvider × List Diag :=
  let diags0 : List Diag :=
    if awsCfgErr then
      [{ severity := .diagError, summary := "Error loading AWS SDK configuration" }]
    else []
  let checkPort := if parsed.checkPort = 0 then 22 else parsed.checkPort
  let shared :=
    match parsed.shared with
    | none => true
    | some b => b
  let lingerRes : Int × List Diag :=
    if shared then
      match goParseDuration parsed.linger with
      | some d => (d, diags0)
      | none =>
        (0, diags0 ++ [{ severity := .diagError, summary := "Invalid duration for linger field" }])
    else
      if parsed.linger ≠ "" then
        (0, diags0 ++ [{ severity := .diagWarning, summary := "Field linger was ignored" }])
      else (0, diags0)
  let prov : AwsProvider :=
    { imageId := parsed.imageId, instanceType := parsed.instanceType,
      keyName := parsed.keyName, checkPort := checkPort, shared := shared,
      lingerNs := lingerRes.1 }
  if hasErrors lingerRes.2 then (none, lingerRes.2) else (some prov, lingerRes.2)

/-- The decoded hclTarget fields of the virtualbox factory; unset
optional strings decode to the empty string. -/
structure VboxParsed where
  name : String
  addr : String
  checkPort : Nat
  startMode : String
  stopMode : String
  linger : String
deriving DecidableEq, Repr

structure VboxProvider where
  name : String
  addr : String
  checkPort : Nat
  startMode : String
  stopMode : String
  lingerNs : Int
deriving DecidableEq, Repr

/-- The start_mode switch of the virtualbox NewProvider; in the invalid
case the provider field keeps the zero value. -/
def vboxStartMode (s : String) : String × List Diag :=
  if s = "gui" ∨ s = "headless" ∨ s = "separate" then (s, [])
  else if s = "" then ("headless", [])
  else ("", [{ severity := .diagError, summary := "Invalid start_mode" }])

/-- The stop_mode switch of the virtualbox NewProvider. -/
def vboxStopMode (s : String) : String × List Diag :=
  if s = "poweroff" ∨ s = "acpipowerbutton" ∨ s = "acpisleepbutton" then (s, [])
  else if s = "" then ("acpipowerbutton", [])
  else ("", [{ severity := .diagError, summary := "Invalid stop_mode" }])

/-- Translation of the virtualbox factory NewProvider after a
successful hcl body decode: mode switches, then the unconditional
linger parse; Go returns the provider together with the diagnostics
even when they hold errors. -/
def vbox_NewProvider (parsed : VboxParsed) : VboxProvider × List Diag :=
  let checkPort := if parsed.checkPort = 0 then 22 else parsed.checkPort
  let sm := vboxStartMode parsed.startMode
  let pm := vboxStopMode parsed.stopMode
  let diags2 := sm.2 ++ pm.2
  match goParseDuration parsed.linger with
  | some d =>
    ({ name := parsed.name, addr := parsed.addr, checkPort := checkPort,
       startMode := sm.1, stopMode := pm.1, lingerNs := d }, diags2)
  | none =>
    ({ name := parsed.name, addr := parsed.addr, checkPort := checkPort,
       startMode := sm.1, stopMode := pm.1, lingerNs := 0 },
     diags2 ++ [{ severity := .diagError, summary := "Invalid duration for linger field" }])

theorem hasErrors_append_error (l : List Diag) (d : Diag)
    (h : d.severity = DiagSeverity.diagError) : hasErrors (l ++ [d]) = true := by
  simp [hasErrors, List.any_append, h]

/-- C10: omitting linger is a configuration error for the factories
that parse it: with shared unset (defaulting to true) or set true, the
aws_ec2 NewProvider on an empty linger string returns a nil provider
and diagnostics containing an error, and the virtualbox NewProvider on
an empty linger string returns diagnostics containing an error, because
the empty string fails duration parsing — there is no implicit
zero-linger default. -/
theorem c10_linger_required :
    goParseDuration "" = none
    ∧ (∀ (awsCfgErr : Bool) (p : AwsParsed),
        (p.shared = none ∨ p.shared = some true) → p.linger = "" →
        (aws_NewProvider awsCfgErr p).1 = none
          ∧ hasErrors (aws_NewProvider awsCfgErr p).2 = true)
    ∧ (∀ q : VboxParsed, q.linger = "" →
        hasErrors (vbox_NewProvider q).2 = true) := by
  refine ⟨rfl, ?_, ?_⟩
  · intro awsCfgErr p hsh hlin
    have hparse : goParseDuration "" = none := rfl
    rcases hsh with h | h <;> cases awsCfgErr <;>
      simp [aws_NewProvider, h, hlin, hparse, hasErrors]
  · intro q hlin
    have hparse : goParseDuration "" = none := rfl
    simp only [vbox_NewProvider, hlin, hparse]
    exact hasErrors_append_error _ _ rfl

/-- An aws_ec2 target configuration with linger unset. -/
def awsParsedNoLinger : AwsParsed :=
  { imageId := "ami-0a25128eec7dbf084", instanceType := "t4g.nano",
    keyName := "example", checkPort := 0, shared := none, linger := "" }

/-- A virtualbox target configuration with linger unset. -/
def vboxParsedNoLinger : VboxParsed :=
  { name := "Debian", addr := "192.168.0.100", checkPort := 0,
    startMode := "", stopMode := "", linger := "" }

/-- Witness for C10 at concrete configurations with linger unset. -/
theorem c10_linger_required_witness :
    (aws_NewProvider false awsParsedNoLinger).1 = none
    ∧ hasErrors (vbox_NewProvider vboxParsedNoLinger).2 = true := by
  have h := c10_linger_required
  exact ⟨(h.2.1 false awsParsedNoLinger (Or.inl rfl) rfl).1,
    h.2.2 vboxParsedNoLinger rfl⟩

/-! Linger timer arming. -/

/-- One second in Go time.Duration units (nanoseconds). -/
def goSecondNs : Int := 1000000000

/-- The duration the aws_ec2 msgLoop linger select arms its timer with:
time.After(prov.Linger); the hcloud msgLoop is identical. -/
def awsLingerTimerNs (lingerNs : Int) : Int := lingerNs

/-- The duration the virtualbox msgLoop linger select arms its timer
with: time.After(time.Duration(prov.Linger) * time.Second), where
prov.Linger is already a duration in nanoseconds. -/
def vboxLingerTimerNs (lingerNs : Int) : Int := lingerNs * goSecondNs

/-- C5: evaluation of the linger timer arming at the failing input. A
virtualbox target with linger 1s parses to 10^9 ns, but the virtualbox
linger select arms its timer with 10^18 ns — a billion times the
configured duration — while aws_ec2 arms exactly the configured
duration; a zero linger arms a zero timer in both, whose immediate fire
exits the linger select to teardown. -/
theorem c5_linger_timer_eval :
    (vbox_NewProvider
        { vboxParsedNoLinger with linger := "1s" }).1.lingerNs = 1000000000
    ∧ vboxLingerTimerNs 1000000000 = 1000000000000000000
    ∧ vboxLingerTimerNs 1000000000 ≠ 1000000000
    ∧ (∀ d : Int, awsLingerTimerNs d = d)
    ∧ vboxLingerTimerNs 0 = 0
    ∧ (∀ (r : Nat → String) (active : Int),
        msgLoopStep r .linger active .timerFire = some .exit) := by
  exact ⟨rfl, rfl, by decide, fun d => rfl, rfl, fun r active => rfl⟩

/-! The drain goroutine launched by handleMachineStopped. -/

inductive DrainEvent where
  | modActive (d : Int)
  | translate (addr : String) (port : Nat)
  | timerFire
deriving DecidableEq, Repr

/-- The grace window of the drain goroutine: time.After(5 * time.Second). -/
def drainWindowNs : Int := 5 * goSecondNs

/-- Translation of the drain goroutine body: a for loop over a select
that discards ModActive values, replies the empty string to Translate
requests, and returns when the timer fires. The event list is what the
select receives in order; the first timerFire is the expiry of the
grace window. Returns the Translate replies sent and whether the
goroutine has returned. -/
def drainLoop : List DrainEvent → List String × Bool
  | [] => ([], false)
  | .modActive _ :: rest => drainLoop rest
  | .translate _ _ :: rest =>
    let res := drainLoop rest
    ("" :: res.1, res.2)
  | .timerFire :: _ => ([], true)

def isDrainTranslate : DrainEvent → Bool
  | .translate _ _ => true
  | _ => false

def isTimerFire : DrainEvent → Bool
  | .timerFire => true
  | _ => false

/-- C8: processing a machine-stopped event launches the drain goroutine
for the dead machine; its grace window is 5 seconds; every Translate
request received before the window closes is answered with the empty
string, one reply per request; ModActive values received are discarded
without effect; and the goroutine returns exactly when the timer
fires. -/
theorem c8_drain_grace_window :
    (∀ (s : MgrState) (m : Mach), (handleMachineStopped s m).2 = [.spawnDrain m])
    ∧ drainWindowNs = 5000000000
    ∧ (∀ evs : List DrainEvent,
        (drainLoop evs).1
          = List.replicate
              ((evs.takeWhile (fun e => !isTimerFire e)).countP isDrainTranslate) ""
        ∧ (drainLoop evs).2 = evs.any isTimerFire)
    ∧ (∀ (d : Int) (evs : List DrainEvent),
        drainLoop (.modActive d :: evs) = drainLoop evs) := by
  refine ⟨fun s m => rfl, rfl, ?_, fun d evs => rfl⟩
  intro evs
  induction evs with
  | nil => exact ⟨rfl, rfl⟩
  | cons e rest ih =>
    obtain ⟨ih1, ih2⟩ := ih
    cases e with
    | modActive d =>
      constructor
      · simpa [drainLoop, List.takeWhile_cons, isTimerFire, isDrainTranslate] using ih1
      · simpa [drainLoop, isTimerFire] using ih2
    | translate a p =>
      constructor
      · simpa [drainLoop, List.takeWhile_cons, isTimerFire, isDrainTranslate,
          List.replicate_succ] using ih1
      · simpa [drainLoop, isTimerFire] using ih2
    | timerFire =>
      constructor
      · simp [drainLoop, List.takeWhile_cons, isTimerFire]
      · simp [drainLoop, isTimerFire]
